import Mathlib

/-!
# Vagrant Cloud post-processor client and `common.ScrubConfig`

A shallow embedding of `post-processor/vagrant-cloud/client.go` and of
`ScrubConfig` from `common/config.go`.

Go strings are modelled as lists of characters (`GoString`); for well-formed
UTF-8 text, searching and replacing on code points agrees with Go's byte-wise
search.  The few standard-library functions the code calls (`strings.Index`,
`strings.Replace`, `strings.Join`, `fmt.Sprintf` with `%s`, `url.QueryEscape`)
are written out following their Go definitions.
-/

namespace VagrantCloud

/-- A Go string, as the list of its characters. -/
abbrev GoString := List Char

/-! ## Standard-library string functions -/

/-- Go's `strings.Index(s, old)`: the offset of the first occurrence of `old`
in `s`, with `none` standing for `-1`. -/
def Index : GoString → GoString → Option Nat
  | [], old => if old = [] then some 0 else none
  | c :: rest, old =>
    if old <+: c :: rest then some 0 else (Index rest old).map (· + 1)

/-- The replacement loop of Go's `strings.Replace` for a non-empty `old`:
each round finds the next occurrence with `Index`, copies the text before it,
writes `new`, and continues after the occurrence.  The first argument bounds
the number of rounds. -/
def replaceLoop (old new : GoString) : Nat → GoString → GoString
  | 0, s => s
  | n + 1, s =>
    match Index s old with
    | none => s
    | some j => s.take j ++ new ++ replaceLoop old new n (s.drop (j + old.length))

/-- Go's `strings.Replace` with an empty `old`: `new` is written before every
character and once more at the end. -/
def insertAround (new : GoString) : GoString → GoString
  | [] => new
  | c :: s => new ++ c :: insertAround new s

/-- Go's `strings.Replace(s, old, new, -1)`.  A string of length `n` holds at
most `n` non-overlapping occurrences of a non-empty `old`, so `n` rounds of the
loop replace all of them. -/
def Replace (s old new : GoString) : GoString :=
  if old = new then s
  else if old = [] then insertAround new s
  else replaceLoop old new s.length s

/-- Go's `strings.Join(elems, sep)`. -/
def Join : List GoString → GoString → GoString
  | [], _ => []
  | [a], _ => a
  | a :: b :: rest, sep => a ++ sep ++ Join (b :: rest) sep

/-- Go's `fmt.Sprintf` restricted to the `%s` verb with string operands. -/
def Sprintf : GoString → List GoString → GoString
  | [], _ => []
  | '%' :: 's' :: rest, a :: args => a ++ Sprintf rest args
  | '%' :: 's' :: rest, [] => "%!s(MISSING)".toList ++ Sprintf rest []
  | c :: rest, args => c :: Sprintf rest args

/-! ## Overlap of a searched text with a fixed text -/

/-- An occurrence of `t` can begin inside `w` and run up to or past the end of
`w`: some non-empty end of `w` is a beginning of `t`. -/
def StartsInside (t w : GoString) : Prop := ∃ u ∈ w.tails, u ≠ [] ∧ u <+: t

/-- An occurrence of `t` can begin before `w` and stop inside `w`: some
non-empty beginning of `w` is an end of `t`. -/
def EndsInside (t w : GoString) : Prop := ∃ u ∈ w.inits, u ≠ [] ∧ u <:+ t

/-- The text `t` can share a position with a copy of `w` placed in a longer
string: `t` lies inside `w`, `w` lies inside `t`, or one begins where the
other ends. -/
def Overlaps (t w : GoString) : Prop :=
  t <:+: w ∨ w <:+: t ∨ StartsInside t w ∨ EndsInside t w

instance (t w : GoString) : Decidable (StartsInside t w) := by
  unfold StartsInside; infer_instance

instance (t w : GoString) : Decidable (EndsInside t w) := by
  unfold EndsInside; infer_instance

instance (t w : GoString) : Decidable (Overlaps t w) := by
  unfold Overlaps; infer_instance


/-! ## Query encoding (`net/url`) -/

/-- The UTF-8 bytes of a character. -/
def utf8Bytes (c : Char) : List Nat :=
  let v := c.toNat
  if v < 0x80 then [v]
  else if v < 0x800 then [0xC0 + v / 64, 0x80 + v % 64]
  else if v < 0x10000 then [0xE0 + v / 4096, 0x80 + v / 64 % 64, 0x80 + v % 64]
  else [0xF0 + v / 262144, 0x80 + v / 4096 % 64, 0x80 + v / 64 % 64, 0x80 + v % 64]

/-- Go's `shouldEscape(c, encodeQueryComponent)`: letters, digits and
`-`, `_`, `.`, `~` are kept, every other byte is escaped. -/
def shouldEscape (c : Nat) : Bool :=
  !((97 ≤ c && c ≤ 122) || (65 ≤ c && c ≤ 90) || (48 ≤ c && c ≤ 57)
    || c == 45 || c == 95 || c == 46 || c == 126)

/-- The digits used by `net/url` for percent escapes. -/
def upperhex : GoString := "0123456789ABCDEF".toList

/-- One byte as written by Go's `escape` in query-component mode: a space
becomes `+`, any other escaped byte becomes `%XX`. -/
def escapeByte (c : Nat) : GoString :=
  if shouldEscape c then
    if c = 32 then ['+']
    else ['%', upperhex.getD (c / 16) '0', upperhex.getD (c % 16) '0']
  else [Char.ofNat c]

/-- Go's `url.QueryEscape`. -/
def QueryEscape (s : GoString) : GoString :=
  ((s.map utf8Bytes).flatten.map escapeByte).flatten

/-- Go's `url.Values.Encode` for parameters listed in key order:
`key=value` pairs, both sides escaped, joined by `&`. -/
def encodeValues (params : List (GoString × GoString)) : GoString :=
  Join (params.map fun kv => QueryEscape kv.1 ++ '=' :: QueryEscape kv.2) ['&']

/-- The characters the query encoding leaves unchanged. -/
def isUnreserved (c : Char) : Prop := shouldEscape c.toNat = false

instance (c : Char) : Decidable (isUnreserved c) := by
  unfold isUnreserved; infer_instance

/-! ## The client and its environment -/

/-- The fields of `VagrantCloudClient` that the methods read.  The `client`
field, the HTTP client built by `New`, is the `roundTrip` function of the
environment. -/
structure VagrantCloudClient where
  BaseURL : GoString
  AccessToken : GoString
deriving DecidableEq

/-- An HTTP response, as far as the client looks at it. -/
structure Response where
  status : Nat
  body : GoString
deriving DecidableEq

/-- The body given to `http.NewRequest`. -/
inductive Body where
  | none
  | buffer (content : GoString)
  | proxyReader (file : Nat)
deriving DecidableEq

/-- An `http.Request`, as far as this code sets it up. -/
structure Request where
  method : GoString
  url : GoString
  header : List (GoString × GoString)
  body : Body
  contentLength : Nat
deriving DecidableEq

/-- What lies outside the program: URL parsing, the HTTP client, the file
system, the JSON encoder and the progress bar.  Go `error` values are
represented by their message. -/
structure Env (β : Type) where
  /-- `url.Parse` inside `http.NewRequest`: `some cause` when it rejects. -/
  parseURL : GoString → Option GoString
  /-- `v.client.Do(req)`: the response and the error it returns. -/
  roundTrip : Request → Option Response × Option GoString
  /-- `os.Open(path)`: a file handle or an error. -/
  openFile : GoString → Except GoString Nat
  /-- `file.Stat()` followed by `fi.Size()`. -/
  statSize : Nat → Except GoString Nat
  /-- `json.NewEncoder(buf).Encode(obj)`: the buffer contents or an error. -/
  encodeJSON : β → Except GoString GoString
  /-- `bar.String()`. -/
  barString : GoString
  /-- The texts the refresher started by `pb.Start()` writes through
  `bar.Callback` while the request is in flight, one call each. -/
  barRefreshes : List GoString
  /-- The text the deferred `bar.Finish()` writes through `bar.Callback`. -/
  barFinished : GoString

/-- An operand of a log line that is not a string. -/
inductive Operand where
  | response (resp : Option Response)
  | int (n : Nat)
  | callback
deriving DecidableEq

/-- The effects a call performs, in program order. -/
inductive Event where
  /-- `log.Printf` with string operands, fully rendered. -/
  | log (line : GoString)
  /-- `log.Printf` with the given format and a non-string operand. -/
  | logf (format : GoString) (operand : Operand)
  /-- `http.NewRequest(method, url, ...)`. -/
  | newRequest (method url : GoString)
  /-- `v.client.Do(req)`. -/
  | send (req : Request)
  /-- `os.Open(path)` with the handle it produced, if any. -/
  | openFile (path : GoString) (handle : Option Nat)
  /-- `file.Stat()`. -/
  | stat (file : Nat)
  /-- `file.Close()`. -/
  | closeFile (file : Nat)
  /-- `pb.Start()` on a bar with the given total. -/
  | barStart (total : Nat)
  /-- `bar.NewProxyReader(file)`. -/
  | wrap (file : Nat)
  /-- A call of the caller's progress callback `output`, made by `Upload`
  itself or by the progress bar through `bar.Callback`. -/
  | output (args : List GoString)
  /-- The deferred `bar.Finish()`. -/
  | barFinish
deriving DecidableEq

/-- How a call ends: it returns its two results, or it stops with a run-time
error raised by a nil pointer dereference. -/
inductive Outcome where
  | returned (resp : Option Response) (err : Option GoString)
  | nilDereference
deriving DecidableEq

/-- The effects of a call together with the way it ended. -/
structure Result where
  trace : List Event
  outcome : Outcome
deriving DecidableEq

/-- The number of bytes of a string. -/
def byteLen (s : GoString) : Nat := (s.map utf8Bytes).flatten.length

/-- Go's `http.NewRequest` for the methods used here: it fails exactly when
the URL does not parse; the content length is taken from a buffer body and
is zero otherwise. -/
def NewRequest {β : Type} (env : Env β) (method url : GoString) (body : Body) :
    Except GoString Request :=
  match env.parseURL url with
  | some cause => .error cause
  | none =>
    .ok { method := method, url := url, header := [], body := body,
          contentLength := match body with
            | .buffer content => byteLen content
            | _ => 0 }

/-- Go's `req.Header.Add(key, value)`. -/
def Request.addHeader (req : Request) (key value : GoString) : Request :=
  { req with header := req.header ++ [(key, value)] }

/-- The first three statements of `Get`, `Delete`, `Post` and `Put`:
`params.Set("access_token", v.AccessToken)` and
`fmt.Sprintf("%s/%s?%s", v.BaseURL, path, params.Encode())`. -/
def VagrantCloudClient.reqUrl (v : VagrantCloudClient) (path : GoString) : GoString :=
  let params := [("access_token".toList, v.AccessToken)]
  Sprintf "%s/%s?%s".toList [v.BaseURL, path, encodeValues params]

/-- The placeholder written in place of the access token. -/
def placeholder : GoString := "ACCESS_TOKEN".toList

/-- The log format of the response line shared by the four verbs. -/
def responseFormat : GoString :=
  "Post-Processor Vagrant Cloud API Response: \n\n%+v".toList

/-- The log format of the request line of `Get`. -/
def getFormat : GoString := "Post-Processor Vagrant Cloud API GET: %s".toList

/-- The log format of the request line of `Delete`. -/
def deleteFormat : GoString := "Post-Processor Vagrant Cloud API DELETE: %s".toList

/-- The log format of the request line of `Put`. -/
def putFormat : GoString := "Post-Processor Vagrant Cloud API PUT: %s".toList

/-- The log format of the request line of `Post`. -/
def postFormat : GoString :=
  "Post-Processor Vagrant Cloud API POST: %s. \n\n Body: %s".toList

/-- The request that `Get`, `Delete` and `Put` hand to the HTTP client when
`http.NewRequest` succeeds: no body, one header. -/
def plainRequest (method url : GoString) : Request :=
  { method := method, url := url,
    header := [("Content-Type".toList, "application/json".toList)],
    body := .none, contentLength := 0 }

/-- The request that `Post` hands to the HTTP client when `http.NewRequest`
succeeds: the encoded body in a buffer, one header. -/
def bodyRequest (url enc : GoString) : Request :=
  { method := "POST".toList, url := url,
    header := [("Content-Type".toList, "application/json".toList)],
    body := .buffer enc, contentLength := byteLen enc }

/-- The request that `Upload` hands to the HTTP client when
`http.NewRequest` succeeds: the progress reader around the file as body and
the file size as content length. -/
def uploadRequest (url : GoString) (file size : Nat) : Request :=
  { method := "PUT".toList, url := url, header := [],
    body := .proxyReader file, contentLength := size }

/-- The method `VagrantCloudClient.Get`. -/
def Get {β : Type} (env : Env β) (v : VagrantCloudClient) (path : GoString) : Result :=
  let reqUrl := v.reqUrl path
  let scrubbedUrl := Replace reqUrl v.AccessToken placeholder
  let line := Event.log (Sprintf getFormat [scrubbedUrl])
  match NewRequest env "GET".toList reqUrl .none with
  | .error _ =>
    -- `req` is nil and `req.Header` dereferences it
    ⟨[line, .newRequest "GET".toList reqUrl], .nilDereference⟩
  | .ok req =>
    let req := req.addHeader "Content-Type".toList "application/json".toList
    let (resp, err) := env.roundTrip req
    ⟨[line, .newRequest "GET".toList reqUrl, .send req,
      .logf responseFormat (.response resp)], .returned resp err⟩

/-- The method `VagrantCloudClient.Delete`. -/
def Delete {β : Type} (env : Env β) (v : VagrantCloudClient) (path : GoString) : Result :=
  let reqUrl := v.reqUrl path
  let scrubbedUrl := Replace reqUrl v.AccessToken placeholder
  let line := Event.log (Sprintf deleteFormat [scrubbedUrl])
  match NewRequest env "DELETE".toList reqUrl .none with
  | .error _ =>
    ⟨[line, .newRequest "DELETE".toList reqUrl], .nilDereference⟩
  | .ok req =>
    let req := req.addHeader "Content-Type".toList "application/json".toList
    let (resp, err) := env.roundTrip req
    ⟨[line, .newRequest "DELETE".toList reqUrl, .send req,
      .logf responseFormat (.response resp)], .returned resp err⟩

/-- The method `VagrantCloudClient.Put`. -/
def Put {β : Type} (env : Env β) (v : VagrantCloudClient) (path : GoString) : Result :=
  let reqUrl := v.reqUrl path
  let scrubbedUrl := Replace reqUrl v.AccessToken placeholder
  let line := Event.log (Sprintf putFormat [scrubbedUrl])
  match NewRequest env "PUT".toList reqUrl .none with
  | .error _ =>
    ⟨[line, .newRequest "PUT".toList reqUrl], .nilDereference⟩
  | .ok req =>
    let req := req.addHeader "Content-Type".toList "application/json".toList
    let (resp, err) := env.roundTrip req
    ⟨[line, .newRequest "PUT".toList reqUrl, .send req,
      .logf responseFormat (.response resp)], .returned resp err⟩

/-- The method `VagrantCloudClient.Post`. -/
def Post {β : Type} (env : Env β) (v : VagrantCloudClient) (path : GoString) (body : β) :
    Result :=
  let reqUrl := v.reqUrl path
  match env.encodeJSON body with
  | .error cause =>
    ⟨[], .returned none (some (Sprintf "Error encoding body for request: %s".toList [cause]))⟩
  | .ok encBody =>
    let scrubbedUrl := Replace reqUrl v.AccessToken placeholder
    let line := Event.log (Sprintf postFormat [scrubbedUrl, encBody])
    match NewRequest env "POST".toList reqUrl (.buffer encBody) with
    | .error _ =>
      ⟨[line, .newRequest "POST".toList reqUrl], .nilDereference⟩
    | .ok req =>
      let req := req.addHeader "Content-Type".toList "application/json".toList
      let (resp, err) := env.roundTrip req
      ⟨[line, .newRequest "POST".toList reqUrl, .send req,
        .logf responseFormat (.response resp)], .returned resp err⟩

/-- The first progress message of `Upload`, given to `output` together with
`bar.String()`. -/
def makingMessage : GoString :=
  "Making Post-Processor Vagrant Cloud upload request. Progress bar should look like : %s".toList

/-- The second progress message of `Upload`. -/
def completedMessage : GoString :=
  "Completed Post-Processor Vagrant Cloud upload request.".toList

/-- The effects of `Upload` from opening the file up to the attempt to build
the request, once the file is open and its size is known. -/
def uploadPrelude (path url : GoString) (file size : Nat) : List Event :=
  [.openFile path (some file), .stat file,
   .logf ("Post-Processor Vagrant Cloud Status: Creating progress-bar and " ++
      "setting total size to %d.\n").toList (.int size),
   .barStart size,
   .logf ("Post-Processor Vagrant Cloud Status: Started progress-bar with " ++
      "output set to %#v.\n").toList .callback,
   .wrap file, .newRequest "PUT".toList url]

/-- The method `VagrantCloudClient.Upload`.  The callback `output` is the
caller's; each call of it is recorded with its arguments.  Besides the two
calls `Upload` makes itself, `bar.Callback = output` makes the progress bar
write through the same callback: its refresher does so while the request is
in flight, and the deferred `bar.Finish()` does so once on every return that
follows `pb.Start()`. -/
def Upload {β : Type} (env : Env β) (_v : VagrantCloudClient) (path url : GoString) :
    Result :=
  match env.openFile path with
  | .error cause =>
    ⟨[.openFile path none],
      .returned none (some (Sprintf "Error opening file for upload: %s".toList [cause]))⟩
  | .ok file =>
    match env.statSize file with
    | .error cause =>
      ⟨[.openFile path (some file), .stat file],
        .returned none (some (Sprintf "Error stating file for upload: %s".toList [cause]))⟩
    | .ok size =>
      match NewRequest env "PUT".toList url (.proxyReader file) with
      | .error cause =>
        ⟨uploadPrelude path url file size ++
          [.barFinish, .output [env.barFinished]],
          .returned none
            (some (Sprintf "Error preparing upload request: %s".toList [cause]))⟩
      | .ok request =>
        let request := { request with contentLength := size }
        let (resp, err) := env.roundTrip request
        ⟨uploadPrelude path url file size ++
          [.log (Sprintf "Post-Processor Vagrant Cloud API Upload: %s %s".toList [path, url]),
           .output [makingMessage, env.barString],
           .send request] ++
          env.barRefreshes.map (fun text => Event.output [text]) ++
          [.output [completedMessage],
           .logf "Post-Processor Vagrant Cloud Upload Response: \n\n%+v".toList
             (.response resp),
           .barFinish,
           .output [env.barFinished]],
          .returned resp err⟩

/-! ## Reading a trace -/

/-- The requests handed to the HTTP client, in order. -/
def sends : List Event → List Request
  | [] => []
  | .send req :: rest => req :: sends rest
  | _ :: rest => sends rest

/-- The URLs given to `http.NewRequest`, in order. -/
def builtURLs : List Event → List GoString
  | [] => []
  | .newRequest _ url :: rest => url :: builtURLs rest
  | _ :: rest => builtURLs rest

/-- The number of calls of the progress callback. -/
def outputCalls : List Event → Nat
  | [] => 0
  | .output _ :: rest => outputCalls rest + 1
  | _ :: rest => outputCalls rest

/-- The file handles opened, in order. -/
def opened : List Event → List Nat
  | [] => []
  | .openFile _ (some file) :: rest => file :: opened rest
  | _ :: rest => opened rest

/-- The file handles closed, in order. -/
def closed : List Event → List Nat
  | [] => []
  | .closeFile file :: rest => file :: closed rest
  | _ :: rest => closed rest

/-- The file handles that are open after the trace: opened and not closed
since. -/
def openHandles : List Event → List Nat → List Nat
  | [], acc => acc
  | .openFile _ (some file) :: rest, acc => openHandles rest (acc ++ [file])
  | .closeFile file :: rest, acc => openHandles rest (acc.erase file)
  | _ :: rest, acc => openHandles rest acc

/-- The rule of `url.Parse` used in the examples: a URL that begins with a
colon has no scheme and is rejected (`getscheme`), with the message of
`url.Error`. -/
def rejectLeadingColon (url : GoString) : Option GoString :=
  match url with
  | ':' :: _ => some ("parse ".toList ++ url ++ ": missing protocol scheme".toList)
  | _ => none

/-- An environment for the examples: URLs are parsed by `rejectLeadingColon`,
the server answers every request with status 200 before the bar refreshes,
the single file `box` has handle 3 and 5 bytes, and the body is already JSON
text. -/
def exampleEnv : Env GoString where
  parseURL := rejectLeadingColon
  roundTrip := fun _ => (some ⟨200, []⟩, none)
  openFile := fun path =>
    if path = "box".toList then .ok 3 else .error "no such file or directory".toList
  statSize := fun _ => .ok 5
  encodeJSON := fun body =>
    if body = [] then .error "unsupported value".toList else .ok body
  barString := "0 / 5".toList
  barRefreshes := []
  barFinished := "5 / 5".toList

/-! ## Error formatting -/

/-- The type `VagrantCloudErrors`: the map `Errors` as a list of entries with
distinct keys. -/
structure VagrantCloudErrors where
  Errors : List (GoString × List GoString)

/-- The keys of the map. -/
def VagrantCloudErrors.keys (v : VagrantCloudErrors) : List GoString :=
  v.Errors.map Prod.fst

/-- The map access `v.Errors[e]`; a missing key gives the nil slice. -/
def VagrantCloudErrors.get (v : VagrantCloudErrors) (e : GoString) : List GoString :=
  match v.Errors.find? (fun kv => kv.1 = e) with
  | some kv => kv.2
  | none => []

/-- The method `VagrantCloudErrors.FormatErrors`.  `order` is the sequence in
which `range v.Errors` yields the keys. -/
def FormatErrors (v : VagrantCloudErrors) (order : List GoString) : GoString :=
  let errs := order.foldl
    (fun errs e => errs ++ [Sprintf "%s %s".toList [e, Join (v.get e) [',']]]) []
  Join errs ". ".toList

/-- The rendering as the specification describes it: for the fields in the
given order, the field, a space and its messages joined by a comma; the
segments joined by a full stop and a space. -/
def renderedAs (v : VagrantCloudErrors) (fields : List GoString) : GoString :=
  ". ".toList.intercalate
    (fields.map fun field => field ++ ' ' :: [','].intercalate (v.get field))

/-- The mapping of the example. -/
def exampleErrors : VagrantCloudErrors :=
  ⟨[("name".toList, ["is required".toList]),
    ("box".toList, ["invalid".toList, "too long".toList])]⟩

/-! ## `common.ScrubConfig` -/

/-- The text written in place of a scrubbed value. -/
def filtered : GoString := "<Filtered>".toList

/-- The function `ScrubConfig`.  `rendering` is the text `fmt` produces for
the target under `%+v`. -/
def ScrubConfig (rendering : GoString) (values : List GoString) : GoString :=
  values.foldl
    (fun conf value => if value = [] then conf else Replace conf value filtered)
    ("Config: ".toList ++ rendering)

/-! ## Fixed text around the scrubbed URL -/

/-- The text `t` can occur at or across the end of a leading fixed text `w`:
inside `w`, or beginning inside `w`. -/
def ReachesInto (t w : GoString) : Prop := t <:+: w ∨ StartsInside t w

/-- The text `t` can occur at or across the beginning of a trailing fixed
text `w`: inside `w`, or ending inside `w`. -/
def RunsInto (t w : GoString) : Prop := t <:+: w ∨ EndsInside t w

instance (t w : GoString) : Decidable (ReachesInto t w) := by
  unfold ReachesInto; infer_instance

instance (t w : GoString) : Decidable (RunsInto t w) := by
  unfold RunsInto; infer_instance

/-- What `getFormat` writes before the URL. -/
def getLead : GoString := "Post-Processor Vagrant Cloud API GET: ".toList

/-- What `deleteFormat` writes before the URL. -/
def deleteLead : GoString := "Post-Processor Vagrant Cloud API DELETE: ".toList

/-- What `putFormat` writes before the URL. -/
def putLead : GoString := "Post-Processor Vagrant Cloud API PUT: ".toList

/-- What `postFormat` writes before the URL. -/
def postLead : GoString := "Post-Processor Vagrant Cloud API POST: ".toList

/-- What `postFormat` writes between the URL and the body. -/
def postMiddle : GoString := ". \n\n Body: ".toList

/-- The lines written by `log.Printf` with string operands, in order. -/
def logged : List Event → List GoString
  | [] => []
  | .log line :: rest => line :: logged rest
  | _ :: rest => logged rest

/-- The call handed exactly one request to the HTTP client, with the given
method and URL, the JSON content type as only header and no body, and it
returned exactly what the HTTP client returned for that request. -/
def SendsOnce {β : Type} (env : Env β) (r : Result) (method url : GoString) : Prop :=
  ∃ req : Request, sends r.trace = [req] ∧ req.method = method ∧ req.url = url ∧
    req.header = [("Content-Type".toList, "application/json".toList)] ∧
    req.body = Body.none ∧
    r.outcome = .returned (env.roundTrip req).1 (env.roundTrip req).2

set_option maxRecDepth 8000

/-! ## Facts about the string functions -/

theorem infix_append_split {t a b : GoString} (h : t <:+: a ++ b) :
    t <:+: a ∨ t <:+: b ∨
      ∃ t1 t2, t1 ≠ [] ∧ t2 ≠ [] ∧ t = t1 ++ t2 ∧ t1 <:+ a ∧ t2 <+: b := by
  obtain ⟨s, r, h⟩ := h
  rcases List.append_eq_append_iff.1 h with ⟨a', ha, _⟩ | ⟨c', hc, hb⟩
  · exact Or.inl ⟨s, a', ha.symm⟩
  · rcases List.append_eq_append_iff.1 hc with ⟨a', ha, ht⟩ | ⟨c'', hs, hc'⟩
    · by_cases h1 : a' = []
      · subst h1
        refine Or.inr (Or.inl ⟨[], r, ?_⟩)
        simp [hb, ht]
      · by_cases h2 : c' = []
        · subst h2
          refine Or.inl ⟨s, [], ?_⟩
          simp [ha, ht]
        · exact Or.inr (Or.inr ⟨a', c', h1, h2, ht, ⟨s, ha.symm⟩, ⟨r, hb.symm⟩⟩)
    · refine Or.inr (Or.inl ⟨c'', r, ?_⟩)
      simp [hb, hc']

theorem infix_around_split {t x w y : GoString} (h : t <:+: x ++ w ++ y) :
    t <:+: x ∨ t <:+: y ∨ Overlaps t w := by
  rcases infix_append_split h with h1 | h2 | ⟨t1, t2, n1, _, ht, hs, hp⟩
  · rcases infix_append_split h1 with h3 | h4 | ⟨u1, u2, _, m2, hu, _, hp2⟩
    · exact Or.inl h3
    · exact Or.inr (Or.inr (Or.inl h4))
    · refine Or.inr (Or.inr (Or.inr (Or.inr (Or.inr ⟨u2, ?_, m2, ?_⟩))))
      · exact (List.mem_inits _ _).2 hp2
      · exact ⟨u1, hu.symm⟩
  · exact Or.inr (Or.inl h2)
  · have hw : w <:+ x ++ w := List.suffix_append x w
    rcases List.suffix_or_suffix_of_suffix hs hw with h5 | h6
    · refine Or.inr (Or.inr (Or.inr (Or.inr (Or.inl ⟨t1, ?_, n1, ?_⟩))))
      · exact (List.mem_tails _ _).2 h5
      · exact ⟨t2, ht.symm⟩
    · refine Or.inr (Or.inr (Or.inr (Or.inl ?_)))
      exact h6.isInfix.trans ⟨[], t2, by simp [ht]⟩

theorem Index_none {old : GoString} :
    ∀ s : GoString, Index s old = none → ¬ old <:+: s
  | [], h => by
    intro hin
    have : old = [] := List.infix_nil.1 hin
    simp [Index, this] at h
  | c :: rest, h => by
    intro hin
    by_cases hp : old <+: c :: rest
    · simp [Index, hp] at h
    · simp only [Index, hp, if_false, Option.map_eq_none'] at h
      rcases List.infix_cons_iff.1 hin with h1 | h2
      · exact hp h1
      · exact Index_none rest h h2

theorem Index_some {old : GoString} (hne : old ≠ []) :
    ∀ (s : GoString) (j : Nat), Index s old = some j →
      old <+: s.drop j ∧ ¬ old <:+: s.take j
  | [], j, h => by simp [Index, hne] at h
  | c :: rest, j, h => by
    by_cases hp : old <+: c :: rest
    · simp only [Index, hp, if_true, Option.some.injEq] at h
      subst h
      refine ⟨by simpa using hp, ?_⟩
      intro hin
      exact hne (List.infix_nil.1 (by simpa using hin))
    · simp only [Index, hp, if_false, Option.map_eq_some'] at h
      obtain ⟨k, hk, rfl⟩ := h
      obtain ⟨h1, h2⟩ := Index_some hne rest k hk
      refine ⟨by simpa using h1, ?_⟩
      intro hin
      rw [List.take_succ_cons] at hin
      rcases List.infix_cons_iff.1 hin with h3 | h4
      · exact hp (h3.trans (List.prefix_cons_inj c |>.2 (List.take_prefix k rest)))
      · exact h2 h4

/-- Whatever occurs in the output of the replacement loop either occurred in
its input or overlaps an inserted copy of `new`. -/
theorem infix_replaceLoop {t old new : GoString} :
    ∀ (n : Nat) (s : GoString), t <:+: replaceLoop old new n s →
      t <:+: s ∨ Overlaps t new
  | 0, s, h => Or.inl (by simpa [replaceLoop] using h)
  | n + 1, s, h => by
    unfold replaceLoop at h
    cases hi : Index s old with
    | none => rw [hi] at h; exact Or.inl h
    | some j =>
      rw [hi] at h
      rcases infix_around_split h with h1 | h2 | h3
      · exact Or.inl (h1.trans (List.take_prefix j s).isInfix)
      · rcases infix_replaceLoop n _ h2 with h4 | h5
        · exact Or.inl (h4.trans (List.drop_suffix _ s).isInfix)
        · exact Or.inr h5
      · exact Or.inr h3

/-- With enough rounds, `old` itself survives the replacement loop only where
it overlaps an inserted copy of `new`. -/
theorem old_infix_replaceLoop {t new : GoString} (hne : t ≠ []) :
    ∀ (n : Nat) (s : GoString), s.length ≤ n → t <:+: replaceLoop t new n s →
      Overlaps t new
  | 0, s, hl, h => by
    have hs : s = [] := List.eq_nil_of_length_eq_zero (Nat.le_zero.1 hl)
    subst hs
    exact absurd (List.infix_nil.1 (by simpa [replaceLoop] using h)) hne
  | n + 1, s, hl, h => by
    unfold replaceLoop at h
    cases hi : Index s t with
    | none => rw [hi] at h; exact absurd h (Index_none s hi)
    | some j =>
      rw [hi] at h
      rcases infix_around_split h with h1 | h2 | h3
      · exact absurd h1 (Index_some hne s j hi).2
      · refine old_infix_replaceLoop hne n _ ?_ h2
        have hpos : 0 < t.length := List.length_pos.2 hne
        rw [List.length_drop]
        omega
      · exact h3

/-- The rounds granted by `Replace` are enough: granting more changes nothing. -/
theorem replaceLoop_fuel {old new : GoString} (hne : old ≠ []) :
    ∀ (n m : Nat) (s : GoString), s.length ≤ n → s.length ≤ m →
      replaceLoop old new n s = replaceLoop old new m s
  | 0, m, s, hn, _ => by
    have hs : s = [] := List.eq_nil_of_length_eq_zero (Nat.le_zero.1 hn)
    subst hs
    cases m <;> simp [replaceLoop, Index, hne]
  | n + 1, 0, s, _, hm => by
    have hs : s = [] := List.eq_nil_of_length_eq_zero (Nat.le_zero.1 hm)
    subst hs
    simp [replaceLoop, Index, hne]
  | n + 1, m + 1, s, hn, hm => by
    unfold replaceLoop
    cases hi : Index s old with
    | none => rfl
    | some j =>
      have hpos : 0 < old.length := List.length_pos.2 hne
      have hd : (s.drop (j + old.length)).length ≤ s.length - 1 := by
        rw [List.length_drop]; omega
      simp only
      rw [replaceLoop_fuel hne n m _ (by omega) (by omega)]

/-- After `Replace s t new`, the text `t` can only remain where it overlaps
the replacement text. -/
theorem old_infix_Replace {s t new : GoString} (h : t <:+: Replace s t new) :
    Overlaps t new := by
  unfold Replace at h
  by_cases h1 : t = new
  · exact Or.inl (h1 ▸ List.infix_refl t)
  · by_cases h2 : t = []
    · exact Or.inl (h2 ▸ ⟨[], new, by simp⟩)
    · simp only [h1, h2, if_false] at h
      exact old_infix_replaceLoop h2 _ s (Nat.le_refl _) h

/-- Replacing a non-empty `old` by `new` creates occurrences of another text
`t` only where `t` overlaps the replacement text. -/
theorem infix_Replace {s t old new : GoString} (hold : old ≠ [])
    (h : t <:+: Replace s old new) : t <:+: s ∨ Overlaps t new := by
  unfold Replace at h
  by_cases h1 : old = new
  · simp only [h1, if_true] at h; exact Or.inl h
  · simp only [h1, hold, if_false] at h
    exact infix_replaceLoop _ s h

theorem Sprintf_getFormat (x : GoString) : Sprintf getFormat [x] = getLead ++ x := by
  have h : Sprintf getFormat [x] = getLead ++ (x ++ []) := rfl
  rw [h, List.append_nil]

theorem Sprintf_deleteFormat (x : GoString) :
    Sprintf deleteFormat [x] = deleteLead ++ x := by
  have h : Sprintf deleteFormat [x] = deleteLead ++ (x ++ []) := rfl
  rw [h, List.append_nil]

theorem Sprintf_putFormat (x : GoString) : Sprintf putFormat [x] = putLead ++ x := by
  have h : Sprintf putFormat [x] = putLead ++ (x ++ []) := rfl
  rw [h, List.append_nil]

theorem Sprintf_postFormat (x y : GoString) :
    Sprintf postFormat [x, y] = postLead ++ x ++ (postMiddle ++ y) := by
  have h : Sprintf postFormat [x, y] = postLead ++ (x ++ (postMiddle ++ (y ++ []))) := rfl
  rw [h, List.append_nil, List.append_assoc]

/-- A text found in `lead ++ s` lies in `s` unless it reaches into `lead`. -/
theorem infix_after_lead {t lead s : GoString} (h : t <:+: lead ++ s)
    (hl : ¬ ReachesInto t lead) : t <:+: s := by
  rcases infix_append_split h with h1 | h2 | ⟨t1, t2, n1, _, ht, hs, _⟩
  · exact absurd (Or.inl h1) hl
  · exact h2
  · exact absurd (Or.inr ⟨t1, (List.mem_tails _ _).2 hs, n1, ⟨t2, ht.symm⟩⟩) hl

/-- A text found in `s ++ tail` lies in `s` unless it runs into `tail`. -/
theorem infix_before_tail {t s tail : GoString} (h : t <:+: s ++ tail)
    (hl : ¬ RunsInto t tail) : t <:+: s := by
  rcases infix_append_split h with h1 | h2 | ⟨t1, t2, _, n2, ht, _, hp⟩
  · exact h1
  · exact absurd (Or.inl h2) hl
  · exact absurd (Or.inr ⟨t2, (List.mem_inits _ _).2 hp, n2, ⟨t1, ht.symm⟩⟩) hl

/-! ## The methods, path by path -/

theorem Get_built {β : Type} (env : Env β) (v : VagrantCloudClient) (path : GoString)
    (h : env.parseURL (v.reqUrl path) = none) :
    Get env v path =
      ⟨[.log (getLead ++ Replace (v.reqUrl path) v.AccessToken placeholder),
        .newRequest "GET".toList (v.reqUrl path),
        .send (plainRequest "GET".toList (v.reqUrl path)),
        .logf responseFormat
          (.response (env.roundTrip (plainRequest "GET".toList (v.reqUrl path))).1)],
       .returned (env.roundTrip (plainRequest "GET".toList (v.reqUrl path))).1
         (env.roundTrip (plainRequest "GET".toList (v.reqUrl path))).2⟩ := by
  simp [Get, NewRequest, h, Sprintf_getFormat, Request.addHeader, plainRequest]

theorem Get_unbuilt {β : Type} (env : Env β) (v : VagrantCloudClient) (path : GoString)
    (cause : GoString) (h : env.parseURL (v.reqUrl path) = some cause) :
    Get env v path =
      ⟨[.log (getLead ++ Replace (v.reqUrl path) v.AccessToken placeholder),
        .newRequest "GET".toList (v.reqUrl path)], .nilDereference⟩ := by
  simp [Get, NewRequest, h, Sprintf_getFormat]

theorem Delete_built {β : Type} (env : Env β) (v : VagrantCloudClient) (path : GoString)
    (h : env.parseURL (v.reqUrl path) = none) :
    Delete env v path =
      ⟨[.log (deleteLead ++ Replace (v.reqUrl path) v.AccessToken placeholder),
        .newRequest "DELETE".toList (v.reqUrl path),
        .send (plainRequest "DELETE".toList (v.reqUrl path)),
        .logf responseFormat
          (.response (env.roundTrip (plainRequest "DELETE".toList (v.reqUrl path))).1)],
       .returned (env.roundTrip (plainRequest "DELETE".toList (v.reqUrl path))).1
         (env.roundTrip (plainRequest "DELETE".toList (v.reqUrl path))).2⟩ := by
  simp [Delete, NewRequest, h, Sprintf_deleteFormat, Request.addHeader, plainRequest]

theorem Delete_unbuilt {β : Type} (env : Env β) (v : VagrantCloudClient)
    (path : GoString) (cause : GoString)
    (h : env.parseURL (v.reqUrl path) = some cause) :
    Delete env v path =
      ⟨[.log (deleteLead ++ Replace (v.reqUrl path) v.AccessToken placeholder),
        .newRequest "DELETE".toList (v.reqUrl path)], .nilDereference⟩ := by
  simp [Delete, NewRequest, h, Sprintf_deleteFormat]

theorem Put_built {β : Type} (env : Env β) (v : VagrantCloudClient) (path : GoString)
    (h : env.parseURL (v.reqUrl path) = none) :
    Put env v path =
      ⟨[.log (putLead ++ Replace (v.reqUrl path) v.AccessToken placeholder),
        .newRequest "PUT".toList (v.reqUrl path),
        .send (plainRequest "PUT".toList (v.reqUrl path)),
        .logf responseFormat
          (.response (env.roundTrip (plainRequest "PUT".toList (v.reqUrl path))).1)],
       .returned (env.roundTrip (plainRequest "PUT".toList (v.reqUrl path))).1
         (env.roundTrip (plainRequest "PUT".toList (v.reqUrl path))).2⟩ := by
  simp [Put, NewRequest, h, Sprintf_putFormat, Request.addHeader, plainRequest]

theorem Put_unbuilt {β : Type} (env : Env β) (v : VagrantCloudClient) (path : GoString)
    (cause : GoString) (h : env.parseURL (v.reqUrl path) = some cause) :
    Put env v path =
      ⟨[.log (putLead ++ Replace (v.reqUrl path) v.AccessToken placeholder),
        .newRequest "PUT".toList (v.reqUrl path)], .nilDereference⟩ := by
  simp [Put, NewRequest, h, Sprintf_putFormat]

theorem Post_unencoded {β : Type} (env : Env β) (v : VagrantCloudClient)
    (path : GoString) (body : β) (cause : GoString)
    (he : env.encodeJSON body = .error cause) :
    Post env v path body =
      ⟨[], .returned none (some ("Error encoding body for request: ".toList ++ cause))⟩ := by
  simp [Post, he, Sprintf]

theorem Post_built {β : Type} (env : Env β) (v : VagrantCloudClient) (path : GoString)
    (body : β) (enc : GoString) (he : env.encodeJSON body = .ok enc)
    (h : env.parseURL (v.reqUrl path) = none) :
    Post env v path body =
      ⟨[.log (postLead ++ Replace (v.reqUrl path) v.AccessToken placeholder
            ++ (postMiddle ++ enc)),
        .newRequest "POST".toList (v.reqUrl path),
        .send (bodyRequest (v.reqUrl path) enc),
        .logf responseFormat
          (.response (env.roundTrip (bodyRequest (v.reqUrl path) enc)).1)],
       .returned (env.roundTrip (bodyRequest (v.reqUrl path) enc)).1
         (env.roundTrip (bodyRequest (v.reqUrl path) enc)).2⟩ := by
  simp [Post, NewRequest, he, h, Sprintf_postFormat, Request.addHeader, bodyRequest]

theorem Post_unbuilt {β : Type} (env : Env β) (v : VagrantCloudClient) (path : GoString)
    (body : β) (enc : GoString) (he : env.encodeJSON body = .ok enc)
    (cause : GoString) (h : env.parseURL (v.reqUrl path) = some cause) :
    Post env v path body =
      ⟨[.log (postLead ++ Replace (v.reqUrl path) v.AccessToken placeholder
            ++ (postMiddle ++ enc)),
        .newRequest "POST".toList (v.reqUrl path)], .nilDereference⟩ := by
  simp [Post, NewRequest, he, h, Sprintf_postFormat]

theorem logged_Get {β : Type} (env : Env β) (v : VagrantCloudClient) (path : GoString) :
    logged (Get env v path).trace
      = [getLead ++ Replace (v.reqUrl path) v.AccessToken placeholder] := by
  cases h : env.parseURL (v.reqUrl path) with
  | none => rw [Get_built env v path h]; rfl
  | some cause => rw [Get_unbuilt env v path cause h]; rfl

theorem logged_Delete {β : Type} (env : Env β) (v : VagrantCloudClient) (path : GoString) :
    logged (Delete env v path).trace
      = [deleteLead ++ Replace (v.reqUrl path) v.AccessToken placeholder] := by
  cases h : env.parseURL (v.reqUrl path) with
  | none => rw [Delete_built env v path h]; rfl
  | some cause => rw [Delete_unbuilt env v path cause h]; rfl

theorem logged_Put {β : Type} (env : Env β) (v : VagrantCloudClient) (path : GoString) :
    logged (Put env v path).trace
      = [putLead ++ Replace (v.reqUrl path) v.AccessToken placeholder] := by
  cases h : env.parseURL (v.reqUrl path) with
  | none => rw [Put_built env v path h]; rfl
  | some cause => rw [Put_unbuilt env v path cause h]; rfl

theorem logged_Post {β : Type} (env : Env β) (v : VagrantCloudClient) (path : GoString)
    (body : β) (enc : GoString) (he : env.encodeJSON body = .ok enc) :
    logged (Post env v path body).trace
      = [postLead ++ Replace (v.reqUrl path) v.AccessToken placeholder
          ++ (postMiddle ++ enc)] := by
  cases h : env.parseURL (v.reqUrl path) with
  | none => rw [Post_built env v path body enc he h]; rfl
  | some cause => rw [Post_unbuilt env v path body enc he cause h]; rfl

theorem logged_Post_error {β : Type} (env : Env β) (v : VagrantCloudClient)
    (path : GoString) (body : β) (cause : GoString)
    (he : env.encodeJSON body = .error cause) :
    logged (Post env v path body).trace = [] := by
  rw [Post_unencoded env v path body cause he]; rfl

theorem builtURLs_Get {β : Type} (env : Env β) (v : VagrantCloudClient) (path : GoString) :
    builtURLs (Get env v path).trace = [v.reqUrl path] := by
  cases h : env.parseURL (v.reqUrl path) with
  | none => rw [Get_built env v path h]; rfl
  | some cause => rw [Get_unbuilt env v path cause h]; rfl

theorem builtURLs_Delete {β : Type} (env : Env β) (v : VagrantCloudClient)
    (path : GoString) : builtURLs (Delete env v path).trace = [v.reqUrl path] := by
  cases h : env.parseURL (v.reqUrl path) with
  | none => rw [Delete_built env v path h]; rfl
  | some cause => rw [Delete_unbuilt env v path cause h]; rfl

theorem builtURLs_Put {β : Type} (env : Env β) (v : VagrantCloudClient) (path : GoString) :
    builtURLs (Put env v path).trace = [v.reqUrl path] := by
  cases h : env.parseURL (v.reqUrl path) with
  | none => rw [Put_built env v path h]; rfl
  | some cause => rw [Put_unbuilt env v path cause h]; rfl

theorem builtURLs_Post {β : Type} (env : Env β) (v : VagrantCloudClient) (path : GoString)
    (body : β) (enc : GoString) (he : env.encodeJSON body = .ok enc) :
    builtURLs (Post env v path body).trace = [v.reqUrl path] := by
  cases h : env.parseURL (v.reqUrl path) with
  | none => rw [Post_built env v path body enc he h]; rfl
  | some cause => rw [Post_unbuilt env v path body enc he cause h]; rfl

/-- C1 (amended): for every base URL, path and access token `t` that does
not overlap the placeholder `ACCESS_TOKEN` (so `t` is not empty, not the
placeholder, not part of it and shares no border with it), the request line
logged by `Get`, `Delete` and `Put` does not contain `t` provided `t` does not
reach into the fixed text before the URL; the same holds for the line logged
by `Post` provided also that `t` does not run into the text that follows the
URL there (the body label and the encoded body). -/
theorem request_line_hides_token {β : Type} (env : Env β) (b p t : GoString)
    (body : β) (hp : ¬ Overlaps t placeholder) :
    (¬ ReachesInto t getLead →
        ∀ line ∈ logged (Get env ⟨b, t⟩ p).trace, ¬ t <:+: line) ∧
    (¬ ReachesInto t deleteLead →
        ∀ line ∈ logged (Delete env ⟨b, t⟩ p).trace, ¬ t <:+: line) ∧
    (¬ ReachesInto t putLead →
        ∀ line ∈ logged (Put env ⟨b, t⟩ p).trace, ¬ t <:+: line) ∧
    (¬ ReachesInto t postLead →
        (∀ enc, env.encodeJSON body = .ok enc → ¬ RunsInto t (postMiddle ++ enc)) →
        ∀ line ∈ logged (Post env ⟨b, t⟩ p body).trace, ¬ t <:+: line) := by
  refine ⟨?_, ?_, ?_, ?_⟩
  · intro hl line hm hin
    rw [logged_Get, List.mem_singleton] at hm
    subst hm
    exact hp (old_infix_Replace (infix_after_lead hin hl))
  · intro hl line hm hin
    rw [logged_Delete, List.mem_singleton] at hm
    subst hm
    exact hp (old_infix_Replace (infix_after_lead hin hl))
  · intro hl line hm hin
    rw [logged_Put, List.mem_singleton] at hm
    subst hm
    exact hp (old_infix_Replace (infix_after_lead hin hl))
  · intro hl ht line hm hin
    cases he : env.encodeJSON body with
    | error cause => rw [logged_Post_error env _ p body cause he] at hm; simp at hm
    | ok enc =>
      rw [logged_Post env _ p body enc he, List.mem_singleton] at hm
      subst hm
      have h1 := infix_before_tail hin (ht enc he)
      exact hp (old_infix_Replace (infix_after_lead h1 hl))

/-- The token `abc123` satisfies the hypotheses, and the lines logged by `Get`
and by `Post` for it do not contain it. -/
theorem request_line_hides_token_witness :
    ¬ "abc123".toList <:+: ("Post-Processor Vagrant Cloud API GET: " ++
        "https://vagrantcloud.com/api/v1/box/info?access_token=ACCESS_TOKEN").toList ∧
    ¬ "abc123".toList <:+: ("Post-Processor Vagrant Cloud API POST: " ++
        "https://vagrantcloud.com/api/v1/box/info?access_token=ACCESS_TOKEN" ++
        ". \n\n Body: \x7b\x7d").toList :=
  have h := request_line_hides_token exampleEnv "https://vagrantcloud.com/api/v1".toList
    "box/info".toList "abc123".toList "\x7b\x7d".toList (by decide)
  ⟨h.1 (by decide) _ (by decide), h.2.2.2 (by decide) (by
    intro enc he
    have : enc = "\x7b\x7d".toList := by
      simp [exampleEnv] at he
      exact he.symm
    subst this
    decide) _ (by decide)⟩

/-- C1 (counterexample): with the access token `TOKEN`, which is not the
placeholder, the request line logged by `Get` ends in
`access_token=ACCESS_TOKEN` and so contains the token; with the access token
`API` the line contains the token in its fixed text. -/
theorem request_line_shows_token :
    "TOKEN".toList ≠ placeholder ∧
    logged (Get exampleEnv ⟨"https://vagrantcloud.com/api/v1".toList,
        "TOKEN".toList⟩ "box/info".toList).trace
      = [("Post-Processor Vagrant Cloud API GET: " ++
          "https://vagrantcloud.com/api/v1/box/info?access_token=ACCESS_TOKEN").toList] ∧
    "TOKEN".toList <:+: ("Post-Processor Vagrant Cloud API GET: " ++
          "https://vagrantcloud.com/api/v1/box/info?access_token=ACCESS_TOKEN").toList ∧
    "API".toList ≠ placeholder ∧
    logged (Get exampleEnv ⟨"https://vagrantcloud.com/api/v1".toList,
        "API".toList⟩ "box/info".toList).trace
      = [("Post-Processor Vagrant Cloud API GET: " ++
          "https://vagrantcloud.com/api/v1/box/info?access_token=ACCESS_TOKEN").toList] ∧
    "API".toList <:+: ("Post-Processor Vagrant Cloud API GET: " ++
          "https://vagrantcloud.com/api/v1/box/info?access_token=ACCESS_TOKEN").toList := by
  decide

/-! ## The request URL -/

theorem QueryEscape_cons (c : Char) (t : GoString) :
    QueryEscape (c :: t) = ((utf8Bytes c).map escapeByte).flatten ++ QueryEscape t := by
  simp [QueryEscape]

theorem escape_unreserved (c : Char) (h : isUnreserved c) :
    ((utf8Bytes c).map escapeByte).flatten = [c] := by
  unfold isUnreserved at h
  have hlt : c.toNat < 128 := by
    simp [shouldEscape] at h
    omega
  simp [utf8Bytes, hlt, escapeByte, h, Char.ofNat_toNat]

theorem QueryEscape_unreserved :
    ∀ t : GoString, (∀ c ∈ t, isUnreserved c) → QueryEscape t = t
  | [], _ => rfl
  | c :: t, h => by
    rw [QueryEscape_cons, escape_unreserved c (h c (List.mem_cons_self c t)),
      QueryEscape_unreserved t (fun d hd => h d (List.mem_cons_of_mem c hd))]
    rfl

theorem reqUrl_eq (b p t : GoString) :
    VagrantCloudClient.reqUrl ⟨b, t⟩ p
      = b ++ "/".toList ++ p ++ "?access_token=".toList ++ QueryEscape t := by
  have h1 : ∀ e : GoString, Sprintf "%s/%s?%s".toList [b, p, e]
      = b ++ ('/' :: (p ++ ('?' :: (e ++ [])))) := fun _ => rfl
  have h2 : QueryEscape "access_token".toList = "access_token".toList := by decide
  unfold VagrantCloudClient.reqUrl encodeValues
  simp only [h1, List.map, Join, h2]
  simp

/-- C2: for every base URL `b`, path `p` and access token `t`, the request
URL is `b + "/" + p + "?access_token=" + e` with `e` the query encoding of
`t`; when `t` consists of letters, digits, `-`, `_`, `.` and `~` only, it is
`b + "/" + p + "?access_token=" + t`; path `box/info` with token `abc123`
gives `b + "/box/info?access_token=abc123"`; and `Get`, `Delete`, `Put` and
`Post` (once its body is encoded) each give `http.NewRequest` this one URL. -/
theorem request_url_built {β : Type} (env : Env β) (b p t : GoString) (body : β) :
    VagrantCloudClient.reqUrl ⟨b, t⟩ p
      = b ++ "/".toList ++ p ++ "?access_token=".toList ++ QueryEscape t ∧
    ((∀ c ∈ t, isUnreserved c) →
      VagrantCloudClient.reqUrl ⟨b, t⟩ p
        = b ++ "/".toList ++ p ++ "?access_token=".toList ++ t) ∧
    VagrantCloudClient.reqUrl ⟨b, "abc123".toList⟩ "box/info".toList
      = b ++ "/box/info?access_token=abc123".toList ∧
    builtURLs (Get env ⟨b, t⟩ p).trace = [VagrantCloudClient.reqUrl ⟨b, t⟩ p] ∧
    builtURLs (Delete env ⟨b, t⟩ p).trace = [VagrantCloudClient.reqUrl ⟨b, t⟩ p] ∧
    builtURLs (Put env ⟨b, t⟩ p).trace = [VagrantCloudClient.reqUrl ⟨b, t⟩ p] ∧
    (∀ enc, env.encodeJSON body = .ok enc →
      builtURLs (Post env ⟨b, t⟩ p body).trace = [VagrantCloudClient.reqUrl ⟨b, t⟩ p]) := by
  refine ⟨reqUrl_eq b p t, ?_, ?_, builtURLs_Get env _ p, builtURLs_Delete env _ p,
    builtURLs_Put env _ p, fun enc he => builtURLs_Post env _ p body enc he⟩
  · intro h
    rw [reqUrl_eq, QueryEscape_unreserved t h]
  · rw [reqUrl_eq]
    have h : QueryEscape "abc123".toList = "abc123".toList := by decide
    rw [h]
    simp

/-- The token `a-b_c.d~9` is left unchanged by the query encoding, and `Post`
on an encodable body gives `http.NewRequest` the URL ending in it. -/
theorem request_url_built_witness :
    VagrantCloudClient.reqUrl ⟨"https://vagrantcloud.com/api/v1".toList,
        "a-b_c.d~9".toList⟩ "box/info".toList
      = "https://vagrantcloud.com/api/v1".toList ++ "/".toList ++ "box/info".toList
          ++ "?access_token=".toList ++ "a-b_c.d~9".toList ∧
    builtURLs (Post exampleEnv ⟨"https://vagrantcloud.com/api/v1".toList,
        "a-b_c.d~9".toList⟩ "box/info".toList "\x7b\x7d".toList).trace
      = [VagrantCloudClient.reqUrl ⟨"https://vagrantcloud.com/api/v1".toList,
        "a-b_c.d~9".toList⟩ "box/info".toList] :=
  have h := request_url_built exampleEnv "https://vagrantcloud.com/api/v1".toList
    "box/info".toList "a-b_c.d~9".toList "\x7b\x7d".toList
  ⟨h.2.1 (by decide), h.2.2.2.2.2.2 "\x7b\x7d".toList rfl⟩

/-! ## Error formatting -/

theorem foldl_append_singleton {α γ : Type} (f : α → γ) :
    ∀ (l : List α) (acc : List γ),
      l.foldl (fun errs e => errs ++ [f e]) acc = acc ++ l.map f
  | [], acc => by simp
  | a :: l, acc => by simp [foldl_append_singleton f l]

theorem Join_eq_intercalate (sep : GoString) :
    ∀ l : List GoString, Join l sep = sep.intercalate l
  | [] => rfl
  | [a] => by simp [Join, List.intercalate, List.intersperse]
  | a :: b :: rest => by
    have ih := Join_eq_intercalate sep (b :: rest)
    simp only [List.intercalate] at ih
    simp [Join, List.intercalate, List.intersperse, ih]

theorem FormatErrors_eq (v : VagrantCloudErrors) (order : List GoString) :
    FormatErrors v order = renderedAs v order := by
  have h : ∀ e m : GoString, Sprintf "%s %s".toList [e, m] = e ++ ' ' :: (m ++ []) :=
    fun _ _ => rfl
  unfold FormatErrors renderedAs
  simp only [foldl_append_singleton, List.nil_append, Join_eq_intercalate, h,
    List.append_nil]

theorem perm_pair_cases {α : Type} {a b : α} {l : List α} (h : l.Perm [a, b]) :
    l = [a, b] ∨ l = [b, a] := by
  have hl : l.length = 2 := h.length_eq
  obtain ⟨x, y, rfl⟩ := List.length_eq_two.1 hl
  have hx : x = a ∨ x = b := by simpa using h.mem_iff.1 (List.mem_cons_self x [y])
  rcases hx with hx | hx
  · subst hx
    have h1 : [y].Perm [b] := h.cons_inv
    have h2 : y = b := by simpa using h1.mem_iff.1 (List.mem_cons_self y [])
    exact Or.inl (by rw [h2])
  · subst hx
    have h1 : [y].Perm [a] := (h.trans (List.Perm.swap x a [])).cons_inv
    have h2 : y = a := by simpa using h1.mem_iff.1 (List.mem_cons_self y [])
    exact Or.inr (by rw [h2])

/-- C3: for every errors mapping (distinct keys) and every order in which
the iteration yields its keys, `FormatErrors` returns the rendering described
for some ordering of the field names in which each occurs exactly once: the
segments `field + " " + messages joined by ","`, joined by `". "`; the empty
mapping renders as the empty string; and the mapping of the example renders
as `name is required. box invalid,too long` or as
`box invalid,too long. name is required`. -/
theorem format_errors_rendering (v : VagrantCloudErrors) (order : List GoString)
    (hmap : v.keys.Nodup) (horder : order.Perm v.keys) :
    (∃ fields : List GoString, fields.Perm v.keys ∧ fields.Nodup ∧
        FormatErrors v order = renderedAs v fields) ∧
    (v.Errors = [] → FormatErrors v order = []) ∧
    (∀ iteration : List GoString, iteration.Perm exampleErrors.keys →
      FormatErrors exampleErrors iteration
          = "name is required. box invalid,too long".toList ∨
      FormatErrors exampleErrors iteration
          = "box invalid,too long. name is required".toList) := by
  refine ⟨⟨order, horder, horder.nodup_iff.2 hmap, FormatErrors_eq v order⟩, ?_, ?_⟩
  · intro he
    have hk : order = [] := by
      have : v.keys = [] := by simp [VagrantCloudErrors.keys, he]
      rw [this] at horder
      exact horder.eq_nil
    subst hk
    rfl
  · intro iteration hi
    have hk : exampleErrors.keys = ["name".toList, "box".toList] := rfl
    rw [hk] at hi
    rcases perm_pair_cases hi with h | h
    · subst h; exact Or.inl (by decide)
    · subst h; exact Or.inr (by decide)

/-- The mapping of the example, iterated with `box` first. -/
theorem format_errors_rendering_witness :
    (∃ fields : List GoString, fields.Perm exampleErrors.keys ∧ fields.Nodup ∧
        FormatErrors exampleErrors ["box".toList, "name".toList]
          = renderedAs exampleErrors fields) ∧
    FormatErrors exampleErrors ["box".toList, "name".toList]
      = "box invalid,too long. name is required".toList :=
  ⟨(format_errors_rendering exampleErrors ["box".toList, "name".toList]
      (by decide) (List.Perm.swap _ _ _)).1, by decide⟩

/-! ## `Upload`, path by path -/

theorem Upload_unopened {β : Type} (env : Env β) (v : VagrantCloudClient)
    (path url cause : GoString) (ho : env.openFile path = .error cause) :
    Upload env v path url =
      ⟨[.openFile path none],
        .returned none (some ("Error opening file for upload: ".toList ++ cause))⟩ := by
  simp [Upload, ho, Sprintf]

theorem Upload_unstated {β : Type} (env : Env β) (v : VagrantCloudClient)
    (path url : GoString) (file : Nat) (cause : GoString)
    (ho : env.openFile path = .ok file) (hs : env.statSize file = .error cause) :
    Upload env v path url =
      ⟨[.openFile path (some file), .stat file],
        .returned none (some ("Error stating file for upload: ".toList ++ cause))⟩ := by
  simp [Upload, ho, hs, Sprintf]

theorem Upload_unbuilt {β : Type} (env : Env β) (v : VagrantCloudClient)
    (path url : GoString) (file size : Nat) (cause : GoString)
    (ho : env.openFile path = .ok file) (hs : env.statSize file = .ok size)
    (hu : env.parseURL url = some cause) :
    Upload env v path url =
      ⟨uploadPrelude path url file size ++ [.barFinish, .output [env.barFinished]],
        .returned none (some ("Error preparing upload request: ".toList ++ cause))⟩ := by
  simp [Upload, ho, hs, hu, NewRequest, Sprintf]

theorem Upload_sent {β : Type} (env : Env β) (v : VagrantCloudClient)
    (path url : GoString) (file size : Nat)
    (ho : env.openFile path = .ok file) (hs : env.statSize file = .ok size)
    (hu : env.parseURL url = none) :
    Upload env v path url =
      ⟨uploadPrelude path url file size ++
        [.log (Sprintf "Post-Processor Vagrant Cloud API Upload: %s %s".toList [path, url]),
         .output [makingMessage, env.barString],
         .send (uploadRequest url file size)] ++
        env.barRefreshes.map (fun text => Event.output [text]) ++
        [.output [completedMessage],
         .logf "Post-Processor Vagrant Cloud Upload Response: \n\n%+v".toList
           (.response (env.roundTrip (uploadRequest url file size)).1),
         .barFinish,
         .output [env.barFinished]],
        .returned (env.roundTrip (uploadRequest url file size)).1
          (env.roundTrip (uploadRequest url file size)).2⟩ := by
  simp [Upload, ho, hs, hu, NewRequest, uploadRequest]

/-! ## Reading a trace piece by piece -/

theorem sends_append : ∀ a b : List Event, sends (a ++ b) = sends a ++ sends b
  | [], _ => rfl
  | e :: a, b => by
    cases e <;> simp [sends, sends_append a b]

theorem opened_append : ∀ a b : List Event, opened (a ++ b) = opened a ++ opened b
  | [], _ => rfl
  | e :: a, b => by
    cases e with
    | openFile path handle => cases handle <;> simp [opened, opened_append a b]
    | _ => simp [opened, opened_append a b]

theorem closed_append : ∀ a b : List Event, closed (a ++ b) = closed a ++ closed b
  | [], _ => rfl
  | e :: a, b => by
    cases e <;> simp [closed, closed_append a b]

theorem outputCalls_append :
    ∀ a b : List Event, outputCalls (a ++ b) = outputCalls a + outputCalls b
  | [], _ => by simp [outputCalls]
  | e :: a, b => by
    cases e <;> simp [outputCalls, outputCalls_append a b]
    omega

theorem openHandles_append :
    ∀ (a b : List Event) (acc : List Nat),
      openHandles (a ++ b) acc = openHandles b (openHandles a acc)
  | [], _, _ => rfl
  | e :: a, b, acc => by
    cases e with
    | openFile path handle =>
      cases handle <;> simp [openHandles, openHandles_append a b]
    | _ => simp [openHandles, openHandles_append a b]

theorem sends_callbacks (texts : List GoString) :
    sends (texts.map (fun text => Event.output [text])) = [] := by
  induction texts with
  | nil => rfl
  | cons t ts ih => simpa [sends] using ih

theorem opened_callbacks (texts : List GoString) :
    opened (texts.map (fun text => Event.output [text])) = [] := by
  induction texts with
  | nil => rfl
  | cons t ts ih => simpa [opened] using ih

theorem closed_callbacks (texts : List GoString) :
    closed (texts.map (fun text => Event.output [text])) = [] := by
  induction texts with
  | nil => rfl
  | cons t ts ih => simpa [closed] using ih

theorem openHandles_callbacks (texts : List GoString) (acc : List Nat) :
    openHandles (texts.map (fun text => Event.output [text])) acc = acc := by
  induction texts with
  | nil => rfl
  | cons t ts ih => simpa [openHandles] using ih

/-- C4: if opening the local path fails, `Upload` returns no response and the
error `Error opening file for upload: ` followed by the cause; if encoding the
body fails, `Post` returns no response and the error
`Error encoding body for request: ` followed by the cause; in both cases no
request is handed to the HTTP client. -/
theorem local_failure_sends_nothing {β : Type} (env : Env β) (v : VagrantCloudClient)
    (path url : GoString) (body : β) :
    (∀ cause, env.openFile path = .error cause →
      (Upload env v path url).outcome
          = .returned none (some ("Error opening file for upload: ".toList ++ cause)) ∧
      sends (Upload env v path url).trace = []) ∧
    (∀ cause, env.encodeJSON body = .error cause →
      (Post env v path body).outcome
          = .returned none (some ("Error encoding body for request: ".toList ++ cause)) ∧
      sends (Post env v path body).trace = []) := by
  constructor
  · intro cause ho
    rw [Upload_unopened env v path url cause ho]
    exact ⟨rfl, rfl⟩
  · intro cause he
    rw [Post_unencoded env v path body cause he]
    exact ⟨rfl, rfl⟩

/-- A path that does not exist and a body that cannot be encoded. -/
theorem local_failure_sends_nothing_witness :
    ((Upload exampleEnv ⟨"https://vagrantcloud.com/api/v1".toList, "abc123".toList⟩
        "missing".toList "https://upload.example/box".toList).outcome
      = .returned none (some ("Error opening file for upload: ".toList
          ++ "no such file or directory".toList)) ∧
     sends (Upload exampleEnv ⟨"https://vagrantcloud.com/api/v1".toList, "abc123".toList⟩
        "missing".toList "https://upload.example/box".toList).trace = []) ∧
    ((Post exampleEnv ⟨"https://vagrantcloud.com/api/v1".toList, "abc123".toList⟩
        "box/info".toList []).outcome
      = .returned none (some ("Error encoding body for request: ".toList
          ++ "unsupported value".toList)) ∧
     sends (Post exampleEnv ⟨"https://vagrantcloud.com/api/v1".toList, "abc123".toList⟩
        "box/info".toList []).trace = []) :=
  have h := local_failure_sends_nothing exampleEnv
    ⟨"https://vagrantcloud.com/api/v1".toList, "abc123".toList⟩ "missing".toList
    "https://upload.example/box".toList []
  ⟨h.1 _ rfl, h.2 _ rfl⟩

/-! ## The upload request and its notifications -/

/-- C5: when the local file opens, its size is `n` and the request for the
target URL can be built, `Upload` hands the HTTP client exactly one request,
a `PUT` to the target URL with content length `n`, and the progress callback is
called at least once before that request is handed over and at least once
after, hence at least twice. -/
theorem upload_sends_put {β : Type} (env : Env β) (v : VagrantCloudClient)
    (path url : GoString) (file n : Nat)
    (ho : env.openFile path = .ok file) (hs : env.statSize file = .ok n)
    (hu : env.parseURL url = none) :
    ∃ (req : Request) (before after : List Event),
      (Upload env v path url).trace = before ++ .send req :: after ∧
      sends before = [] ∧ sends after = [] ∧
      req.method = "PUT".toList ∧ req.url = url ∧ req.contentLength = n ∧
      1 ≤ outputCalls before ∧ 1 ≤ outputCalls after ∧
      2 ≤ outputCalls (Upload env v path url).trace := by
  rw [Upload_sent env v path url file n ho hs hu]
  refine ⟨uploadRequest url file n,
    uploadPrelude path url file n ++
      [.log (Sprintf "Post-Processor Vagrant Cloud API Upload: %s %s".toList [path, url]),
       .output [makingMessage, env.barString]],
    env.barRefreshes.map (fun text => Event.output [text]) ++
      [.output [completedMessage],
       .logf "Post-Processor Vagrant Cloud Upload Response: \n\n%+v".toList
         (.response (env.roundTrip (uploadRequest url file n)).1),
       .barFinish,
       .output [env.barFinished]], ?_, ?_, ?_, rfl, rfl, rfl, ?_, ?_, ?_⟩
  · simp [List.append_assoc]
  · simp [sends_append, uploadPrelude, sends]
  · simp [sends_append, sends_callbacks, sends]
  · simp [outputCalls_append, uploadPrelude, outputCalls]
  · rw [outputCalls_append]
    exact Nat.le_trans (by decide) (Nat.le_add_left 2 _)
  · rw [outputCalls_append, outputCalls_append, outputCalls_append]
    exact Nat.le_trans (by decide) (Nat.le_add_left 2 _)

/-- The file `box` of the example environment, 5 bytes long, uploaded to a
URL that parses. -/
theorem upload_sends_put_witness :
    ∃ (req : Request) (before after : List Event),
      (Upload exampleEnv ⟨"https://vagrantcloud.com/api/v1".toList, "abc123".toList⟩
        "box".toList "https://upload.example/box".toList).trace
          = before ++ .send req :: after ∧
      sends before = [] ∧ sends after = [] ∧
      req.method = "PUT".toList ∧ req.url = "https://upload.example/box".toList ∧
      req.contentLength = 5 ∧
      1 ≤ outputCalls before ∧ 1 ≤ outputCalls after ∧
      2 ≤ outputCalls (Upload exampleEnv
        ⟨"https://vagrantcloud.com/api/v1".toList, "abc123".toList⟩
        "box".toList "https://upload.example/box".toList).trace :=
  upload_sends_put exampleEnv ⟨"https://vagrantcloud.com/api/v1".toList, "abc123".toList⟩
    "box".toList "https://upload.example/box".toList 3 5 rfl rfl rfl

/-! ## The order of the effects of `Upload` -/

/-- C7 (amended): for every call of `Upload` in which opening the local file
succeeds, exactly one file handle is opened and `Upload` itself closes no
handle on any exit path; when the stat fails or the request cannot be built,
the handle is still open when `Upload` returns; when the request is built, the
handle is passed to the HTTP client inside the body of the one request. -/
theorem upload_file_handle {β : Type} (env : Env β) (v : VagrantCloudClient)
    (path url : GoString) (file : Nat) (ho : env.openFile path = .ok file) :
    opened (Upload env v path url).trace = [file] ∧
    closed (Upload env v path url).trace = [] ∧
    ((∃ cause, env.statSize file = .error cause) ∨
        ((∃ size, env.statSize file = .ok size) ∧ ∃ cause, env.parseURL url = some cause) →
      openHandles (Upload env v path url).trace [] = [file]) ∧
    (∀ size, env.statSize file = .ok size → env.parseURL url = none →
      ∃ req, sends (Upload env v path url).trace = [req] ∧
        req.body = .proxyReader file) := by
  have key : opened (Upload env v path url).trace = [file] ∧
      closed (Upload env v path url).trace = [] ∧
      openHandles (Upload env v path url).trace [] = [file] := by
    cases hs : env.statSize file with
    | error cause =>
      rw [Upload_unstated env v path url file cause ho hs]
      simp [opened, closed, openHandles]
    | ok size =>
      cases hu : env.parseURL url with
      | some cause =>
        rw [Upload_unbuilt env v path url file size cause ho hs hu]
        simp [uploadPrelude, opened, closed, openHandles]
      | none =>
        rw [Upload_sent env v path url file size ho hs hu]
        simp [uploadPrelude, opened, closed, openHandles, opened_append, closed_append,
          openHandles_append, opened_callbacks, closed_callbacks, openHandles_callbacks]
  refine ⟨key.1, key.2.1, fun _ => key.2.2, ?_⟩
  intro size hs hu
  rw [Upload_sent env v path url file size ho hs hu]
  exact ⟨uploadRequest url file size,
    by simp [uploadPrelude, sends, sends_append, sends_callbacks], rfl⟩

/-- The file `box` of the example environment, uploaded to a URL that does
not parse. -/
theorem upload_file_handle_witness :
    opened (Upload exampleEnv ⟨"https://vagrantcloud.com/api/v1".toList, "abc123".toList⟩
        "box".toList "://upload.example/box".toList).trace = [3] ∧
    closed (Upload exampleEnv ⟨"https://vagrantcloud.com/api/v1".toList, "abc123".toList⟩
        "box".toList "://upload.example/box".toList).trace = [] ∧
    openHandles (Upload exampleEnv
        ⟨"https://vagrantcloud.com/api/v1".toList, "abc123".toList⟩
        "box".toList "://upload.example/box".toList).trace [] = [3] :=
  have h := upload_file_handle exampleEnv
    ⟨"https://vagrantcloud.com/api/v1".toList, "abc123".toList⟩ "box".toList
    "://upload.example/box".toList 3 rfl
  ⟨h.1, h.2.1, h.2.2.1 (Or.inr ⟨⟨5, rfl⟩, _, rfl⟩)⟩

/-- C7 (counterexample): the file `box` opens with handle 3, the target URL
does not parse, `Upload` returns its error, and handle 3 is among the handles
still open at that point. -/
theorem upload_leaves_handle_open :
    exampleEnv.openFile "box".toList = .ok 3 ∧
    (Upload exampleEnv ⟨"https://vagrantcloud.com/api/v1".toList, "abc123".toList⟩
        "box".toList "://upload.example/box".toList).outcome
      = .returned none (some
          ("Error preparing upload request: " ++
            "parse ://upload.example/box: missing protocol scheme").toList) ∧
    3 ∈ openHandles (Upload exampleEnv
        ⟨"https://vagrantcloud.com/api/v1".toList, "abc123".toList⟩
        "box".toList "://upload.example/box".toList).trace [] :=
  ⟨rfl, by decide, by decide⟩

/-! ## `Get`, `Delete` and `Put` -/

/-- C8 (amended): for every client and path for which the request can be
built, each of `Get`, `Delete` and `Put` hands exactly one request to the
HTTP client, with the method `GET`, `DELETE` or `PUT` respectively, the request
URL, the header `Content-Type: application/json` and no body, and returns
exactly the response and the error the HTTP client produced, whatever they
are. -/
theorem plain_verbs_send_once {β : Type} (env : Env β) (v : VagrantCloudClient)
    (path : GoString) (hu : env.parseURL (v.reqUrl path) = none) :
    SendsOnce env (Get env v path) "GET".toList (v.reqUrl path) ∧
    SendsOnce env (Delete env v path) "DELETE".toList (v.reqUrl path) ∧
    SendsOnce env (Put env v path) "PUT".toList (v.reqUrl path) := by
  refine ⟨?_, ?_, ?_⟩
  · rw [Get_built env v path hu]
    exact ⟨plainRequest "GET".toList (v.reqUrl path), rfl, rfl, rfl, rfl, rfl, rfl⟩
  · rw [Delete_built env v path hu]
    exact ⟨plainRequest "DELETE".toList (v.reqUrl path), rfl, rfl, rfl, rfl, rfl, rfl⟩
  · rw [Put_built env v path hu]
    exact ⟨plainRequest "PUT".toList (v.reqUrl path), rfl, rfl, rfl, rfl, rfl, rfl⟩

/-- The client of the example with the path `box/info`. -/
theorem plain_verbs_send_once_witness :
    SendsOnce exampleEnv
      (Get exampleEnv ⟨"https://vagrantcloud.com/api/v1".toList, "abc123".toList⟩
        "box/info".toList) "GET".toList
      (VagrantCloudClient.reqUrl ⟨"https://vagrantcloud.com/api/v1".toList,
        "abc123".toList⟩ "box/info".toList) :=
  (plain_verbs_send_once exampleEnv
    ⟨"https://vagrantcloud.com/api/v1".toList, "abc123".toList⟩ "box/info".toList
    (by decide)).1

/-- C8 (counterexample): with the base URL `://vagrantcloud.com/api/v1`, whose
request URL does not parse, `Get` hands no request to the HTTP client and does
not return a response and an error. -/
theorem get_sends_nothing_when_unbuilt :
    sends (Get exampleEnv ⟨"://vagrantcloud.com/api/v1".toList, "abc123".toList⟩
        "box/info".toList).trace = [] ∧
    ∀ resp err, (Get exampleEnv ⟨"://vagrantcloud.com/api/v1".toList, "abc123".toList⟩
        "box/info".toList).outcome ≠ .returned resp err := by
  have h : Get exampleEnv ⟨"://vagrantcloud.com/api/v1".toList, "abc123".toList⟩
      "box/info".toList
      = ⟨[.log (getLead ++ Replace (VagrantCloudClient.reqUrl
            ⟨"://vagrantcloud.com/api/v1".toList, "abc123".toList⟩ "box/info".toList)
            "abc123".toList placeholder),
          .newRequest "GET".toList (VagrantCloudClient.reqUrl
            ⟨"://vagrantcloud.com/api/v1".toList, "abc123".toList⟩ "box/info".toList)],
        .nilDereference⟩ :=
    Get_unbuilt exampleEnv _ _
      ("parse ".toList ++ VagrantCloudClient.reqUrl
        ⟨"://vagrantcloud.com/api/v1".toList, "abc123".toList⟩ "box/info".toList
        ++ ": missing protocol scheme".toList) (by decide)
  rw [h]
  exact ⟨rfl, fun _ _ hne => by cases hne⟩

/-! ## The unchecked error of `http.NewRequest` -/

/-- C10 (the code at the failing input): whenever the request URL does not
parse, `http.NewRequest` returns no request, and `Get`, `Delete`, `Put` and
`Post` (once its body is encoded) dereference it: they end in a nil
dereference instead of returning, having sent nothing. -/
theorem unbuilt_request_is_dereferenced {β : Type} (env : Env β)
    (v : VagrantCloudClient) (path : GoString) (body : β) (cause : GoString)
    (hu : env.parseURL (v.reqUrl path) = some cause) :
    ((Get env v path).outcome = .nilDereference ∧ sends (Get env v path).trace = []) ∧
    ((Delete env v path).outcome = .nilDereference ∧
      sends (Delete env v path).trace = []) ∧
    ((Put env v path).outcome = .nilDereference ∧ sends (Put env v path).trace = []) ∧
    (∀ enc, env.encodeJSON body = .ok enc →
      (Post env v path body).outcome = .nilDereference ∧
      sends (Post env v path body).trace = []) := by
  refine ⟨?_, ?_, ?_, ?_⟩
  · rw [Get_unbuilt env v path cause hu]; exact ⟨rfl, rfl⟩
  · rw [Delete_unbuilt env v path cause hu]; exact ⟨rfl, rfl⟩
  · rw [Put_unbuilt env v path cause hu]; exact ⟨rfl, rfl⟩
  · intro enc he
    rw [Post_unbuilt env v path body enc he cause hu]; exact ⟨rfl, rfl⟩

/-- The base URL `://vagrantcloud.com/api/v1` with the path `box/info`. -/
theorem unbuilt_request_is_dereferenced_witness :
    (Put exampleEnv ⟨"://vagrantcloud.com/api/v1".toList, "abc123".toList⟩
        "box/info".toList).outcome = .nilDereference ∧
    (Post exampleEnv ⟨"://vagrantcloud.com/api/v1".toList, "abc123".toList⟩
        "box/info".toList "\x7b\x7d".toList).outcome = .nilDereference :=
  have h := unbuilt_request_is_dereferenced exampleEnv
    ⟨"://vagrantcloud.com/api/v1".toList, "abc123".toList⟩ "box/info".toList
    "\x7b\x7d".toList
    ("parse ".toList ++ VagrantCloudClient.reqUrl
      ⟨"://vagrantcloud.com/api/v1".toList, "abc123".toList⟩ "box/info".toList
      ++ ": missing protocol scheme".toList) (by decide)
  ⟨h.2.2.1.1, (h.2.2.2 "\x7b\x7d".toList rfl).1⟩

/-! ## `ScrubConfig` -/

theorem scrub_keeps_absent {v : GoString} (hv : ¬ Overlaps v filtered) :
    ∀ (values : List GoString) (conf : GoString), ¬ v <:+: conf →
      ¬ v <:+: values.foldl
        (fun conf value => if value = [] then conf else Replace conf value filtered) conf
  | [], _, h => h
  | w :: rest, conf, h => by
    simp only [List.foldl_cons]
    apply scrub_keeps_absent hv rest
    by_cases hw : w = []
    · simpa [hw] using h
    · simp only [hw, if_false]
      intro hin
      rcases infix_Replace hw hin with h1 | h2
      · exact h h1
      · exact hv h2

theorem scrub_removes {v : GoString} (hv : ¬ Overlaps v filtered) :
    ∀ (values : List GoString) (conf : GoString), v ∈ values →
      ¬ v <:+: values.foldl
        (fun conf value => if value = [] then conf else Replace conf value filtered) conf
  | [], _, hm => by simp at hm
  | w :: rest, conf, hm => by
    simp only [List.foldl_cons]
    by_cases hvw : v = w
    · subst hvw
      apply scrub_keeps_absent hv rest
      have hne : v ≠ [] := fun h0 => hv (Or.inl (h0 ▸ ⟨[], filtered, by simp⟩))
      simp only [hne, if_false]
      exact fun hin => hv (old_infix_Replace hin)
    · have hm2 : v ∈ rest := by
        rcases List.mem_cons.1 hm with h1 | h1
        · exact absurd h1 hvw
        · exact h1
      exact scrub_removes hv rest _ hm2

theorem scrub_skips_empty :
    ∀ (values : List GoString) (conf : GoString),
      (values.filter (fun value => decide (value ≠ []))).foldl
        (fun conf value => if value = [] then conf else Replace conf value filtered) conf
      = values.foldl
        (fun conf value => if value = [] then conf else Replace conf value filtered) conf
  | [], _ => rfl
  | w :: rest, conf => by
    by_cases hw : w = []
    · simpa [hw] using scrub_skips_empty rest conf
    · simpa [hw] using scrub_skips_empty rest (Replace conf w filtered)

/-- C9 (amended): the string returned by `ScrubConfig` is the label
`Config: ` followed by the rendering of the target, in which each non-empty
value, taken in argument order, has been replaced everywhere by `<Filtered>`
(the label included, empty values skipped and changing nothing); it contains
none of the given values that do not overlap the text `<Filtered>` (such a
value is not empty, not part of `<Filtered>`, does not contain it and shares
no border with it). -/
theorem scrub_config_strips (rendering : GoString) (values : List GoString) :
    (∀ v ∈ values, ¬ Overlaps v filtered → ¬ v <:+: ScrubConfig rendering values) ∧
    ScrubConfig rendering [] = "Config: ".toList ++ rendering ∧
    (∀ v, ScrubConfig rendering (values ++ [v])
      = if v = [] then ScrubConfig rendering values
        else Replace (ScrubConfig rendering values) v filtered) ∧
    ScrubConfig rendering (values.filter (fun value => decide (value ≠ [])))
      = ScrubConfig rendering values := by
  refine ⟨fun v hm hv => scrub_removes hv values _ hm, rfl, ?_, ?_⟩
  · intro v
    simp [ScrubConfig, List.foldl_append]
  · exact scrub_skips_empty values _

/-- The password `s3cret` is scrubbed from the rendering of a configuration. -/
theorem scrub_config_strips_witness :
    ¬ "s3cret".toList <:+: ScrubConfig "\x7bName:web Password:s3cret\x7d".toList
      ["".toList, "s3cret".toList] :=
  (scrub_config_strips "\x7bName:web Password:s3cret\x7d".toList
    ["".toList, "s3cret".toList]).1 "s3cret".toList (by decide) (by decide)

/-- C9 (counterexample): with the non-empty value `red`, the returned string
is `Config: ` followed by the rendering with the value replaced, and it
contains `red` inside `<Filtered>`; with the value `i` the label itself is
changed. -/
theorem scrub_config_shows_value :
    ScrubConfig "\x7bName:web Password:red\x7d".toList ["red".toList]
      = "Config: \x7bName:web Password:<Filtered>\x7d".toList ∧
    "red".toList ≠ [] ∧
    "red".toList <:+: ScrubConfig "\x7bName:web Password:red\x7d".toList ["red".toList] ∧
    ScrubConfig "x".toList ["i".toList] = "Conf<Filtered>g: x".toList ∧
    "i".toList <:+: ScrubConfig "x".toList ["i".toList] := by
  decide

end VagrantCloud
